import Mathlib

/-!
Shallow embedding of the Azure SDK for JS client code under verification:
the Key Vault `SecretClient` (pagination, bundle-to-client result shaping,
constructor), the generated `WorkloadsClient` and `PaloAltoNetworksCloudngfw`
clients (constructor validation and the custom api-version pipeline policy),
and the delete/recover secret poller.

JavaScript strings are modelled as `List Char` where the code manipulates
them character-wise (`split`, `join`, `indexOf`, regex replacement), and as
`String` elsewhere.  JS `undefined`/`null` is modelled as `Option.none`;
fields that may be absent are `Option` fields.  Functions that can throw
return `Except String`.
-/

/-! ## JavaScript string and array primitives -/

/-- JS `String.prototype.split` with a one-character separator: every
occurrence of `sep` splits the string, and the result is never empty
(`"".split(x)` is `[""]`). -/
def jsSplitChar (sep : Char) : List Char → List (List Char)
  | [] => [[]]
  | c :: cs =>
    if c = sep then
      [] :: jsSplitChar sep cs
    else
      match jsSplitChar sep cs with
      | [] => [[c]]
      | p :: ps => (c :: p) :: ps

/-- JS `Array.prototype.join(sep)`: concatenate the parts with `sep`
between consecutive parts. -/
def jsJoin (sep : List Char) : List (List Char) → List Char
  | [] => []
  | [a] => a
  | a :: b :: t => a ++ sep ++ jsJoin sep (b :: t)

/-- Whether `needle` occurs at the start of `haystack`. -/
def startsWithChars : List Char → List Char → Bool
  | [], _ => true
  | _ :: _, [] => false
  | a :: as, b :: bs => a == b && startsWithChars as bs

/-- JS `haystack.indexOf(needle) > -1`: `needle` occurs somewhere in
`haystack`. -/
def containsSub (needle : List Char) : List Char → Bool
  | [] => needle.isEmpty
  | c :: cs => startsWithChars needle (c :: cs) || containsSub needle cs

/-- JS `item.replace(/(?<==).*$/, v)` for items without line terminators:
everything after the first `=` is replaced by `v`; an item without `=` is
returned unchanged. -/
def replaceAfterEq (apiVersion : List Char) : List Char → List Char
  | [] => []
  | c :: cs => if c = '=' then c :: apiVersion else c :: replaceAfterEq apiVersion cs

/-- JS truthiness of a string that may be `undefined`/`null`:
only a present, non-empty string is truthy. -/
def jsTruthyStr : Option String → Bool
  | none => false
  | some s => s != ""

/-- JS `a || dflt` for an optional string `a`: the default is used when `a`
is absent or empty (falsy). -/
def jsOrStr : Option String → String → String
  | none, dflt => dflt
  | some s, dflt => if s = "" then dflt else s

/-- JS object-spread override for one key: a key present in the later
object wins, an absent key keeps the earlier value. -/
def jsOverride {α : Type} : Option α → Option α → Option α
  | old, none => old
  | _, some v => some v

/-! ## Custom api-version pipeline policy

`WorkloadsClient.addCustomApiVersionPolicy` (src/unnamed/part_000, lines
151-176) and `PaloAltoNetworksCloudngfw.addCustomApiVersionPolicy`
(src/sdk/keyvault/keyvault-secrets/src/index.ts, lines 1121-1146) install a
pipeline policy whose `sendRequest` rewrites `request.url` before
forwarding.  Both split the URL on `?`, rewrite each `&`-separated query
item whose text contains `api-version`, and reassemble `param[0] + "?" +
newParams.join("&")`.  The Workloads variant rewrites an item with
`item.replace(/(?<==).*$/, apiVersion)`; the Cloudngfw variant replaces the
whole item by `"api-version=" + apiVersion`. -/

/-- The query item `api-version=` followed by a version string. -/
def apiVersionItem (v : List Char) : List Char := "api-version=".data ++ v

/-- Per-item rewrite of the Workloads policy (part_000 lines 163-169). -/
def workloadsRewriteItem (apiVersion : List Char) (item : List Char) : List Char :=
  if containsSub "api-version".data item then replaceAfterEq apiVersion item else item

/-- Per-item rewrite of the Cloudngfw policy (index.ts lines 1133-1139). -/
def ngfwRewriteItem (apiVersion : List Char) (item : List Char) : List Char :=
  if containsSub "api-version".data item then "api-version=".data ++ apiVersion else item

/-- The URL transformation performed by `sendRequest` of the custom
api-version policy, generic in the per-item rewrite: split on `?`; if there
is a query part, rewrite its `&`-separated items and reassemble (any text
after a second `?` is dropped, as in the source); otherwise leave the URL
unchanged. -/
def customApiVersionSendRequestUrl (rewriteItem : List Char → List Char) (url : List Char) :
    List Char :=
  let param := jsSplitChar '?' url
  if param.length > 1 then
    param.getD 0 [] ++ '?' :: jsJoin ['&'] ((jsSplitChar '&' (param.getD 1 [])).map rewriteItem)
  else url

/-- `WorkloadsClient.addCustomApiVersionPolicy`: no policy is installed for
an absent or empty (falsy) `apiVersion`; otherwise the installed policy
rewrites request URLs with the Workloads per-item rewrite. -/
def workloadsAddCustomApiVersionPolicy (apiVersion : Option String) :
    Option (List Char → List Char) :=
  match apiVersion with
  | none => none
  | some v => if v = "" then none
              else some (customApiVersionSendRequestUrl (workloadsRewriteItem v.data))

/-- `PaloAltoNetworksCloudngfw.addCustomApiVersionPolicy`: same installation
guard, with the Cloudngfw per-item rewrite. -/
def ngfwAddCustomApiVersionPolicy (apiVersion : Option String) :
    Option (List Char → List Char) :=
  match apiVersion with
  | none => none
  | some v => if v = "" then none
              else some (customApiVersionSendRequestUrl (ngfwRewriteItem v.data))

/-! ## Key Vault data model

The wire types `SecretBundle` / `DeletedSecretBundle` are declared in
`./core/models`, which is not under src/; their field inventory follows the
spec (a value, an identifier, an attributes sub-object with enabled flag,
not-before, expiry, created/updated timestamps, and, for deleted secrets,
deletion bookkeeping) plus the fields `src/sdk/keyvault/keyvault-secrets/src/index.ts`
reads (`deletedDate` on the bundle itself, and the abnormal
`attributes.vaultUrl` the source guards against).  Timestamps (`Date`
values, truthy whenever present) are modelled as `Nat`. -/

structure SecretAttributes where
  enabled : Option Bool := none
  notBefore : Option Nat := none
  expires : Option Nat := none
  created : Option Nat := none
  updated : Option Nat := none
  vaultUrl : Option String := none
deriving DecidableEq

structure SecretBundle where
  value : Option String := none
  id : Option String := none
  attributes : Option SecretAttributes := none
  contentType : Option String := none
  managed : Option Bool := none
  deletedDate : Option Nat := none
  recoveryId : Option String := none
  scheduledPurgeDate : Option Nat := none
deriving DecidableEq

/-- Result of parsing a Key Vault entity identifier. -/
structure ParsedId where
  vaultUrl : Option String := none
  name : Option String := none
  version : Option String := none
deriving DecidableEq

/-- Modelled from the spec: `parseKeyvaultIdentifier` is imported from
`./core/utils`, which is not under src/.  The spec states that the client
`name` is parsed from the trailing segment of the server identifier, whose
expected shape is `{vaultUrl}/{collection}/{name}[/{version}]` (for a full
URL `https://{host}/{collection}/{name}[/{version}]`), and that malformed
identifiers are an unhandled edge case; the model returns empty fields for
them. -/
def parseKeyvaultIdentifier (_collection : String) : Option String → ParsedId
  | none => { vaultUrl := none, name := none, version := none }
  | some id =>
    match jsSplitChar '/' id.data with
    | [scheme, [], host, _coll, name] =>
      { vaultUrl := some (String.mk (scheme ++ '/' :: '/' :: host)),
        name := some (String.mk name), version := none }
    | [scheme, [], host, _coll, name, version] =>
      { vaultUrl := some (String.mk (scheme ++ '/' :: '/' :: host)),
        name := some (String.mk name), version := some (String.mk version) }
    | _ => { vaultUrl := none, name := none, version := none }

/-- The client-facing `properties` object built by
`getSecretFromSecretBundle`: the merge (by JS object spread) of the
explicitly renamed timestamps, the bundle fields, the parsed identifier and
the attribute fields.  `none` means the key is absent. -/
structure SecretProperties where
  vaultUrl : Option String := none
  name : Option String := none
  version : Option String := none
  id : Option String := none
  value : Option String := none
  contentType : Option String := none
  managed : Option Bool := none
  enabled : Option Bool := none
  notBefore : Option Nat := none
  expires : Option Nat := none
  created : Option Nat := none
  updated : Option Nat := none
  expiresOn : Option Nat := none
  createdOn : Option Nat := none
  updatedOn : Option Nat := none
  deletedDate : Option Nat := none
  deletedOn : Option Nat := none
  recoveryId : Option String := none
  scheduledPurgeDate : Option Nat := none
deriving DecidableEq

/-- Client-facing secret (`KeyVaultSecret` / `DeletedSecret`). -/
structure KeyVaultSecret where
  value : Option String := none
  name : Option String := none
  properties : SecretProperties := {}
deriving DecidableEq

/-- `SecretClient.getSecretFromSecretBundle` (index.ts lines 870-916).
The source mutates its argument (`delete secretBundle.attributes`), so the
model returns, next to the client secret, the post-call state of the
argument bundle.  When the bundle has no `attributes` object, the source
evaluates `(attributes as any).expires` on `undefined` and throws a
`TypeError`; this is modelled as an `Except.error`.  The successive `let`
bindings mirror the object literal followed by the conditional `delete`
statements of the source. -/
def getSecretFromSecretBundle (bundle : SecretBundle) :
    Except String (KeyVaultSecret × SecretBundle) :=
  let parsedId := parseKeyvaultIdentifier "secrets" bundle.id
  let attributes := bundle.attributes
  let secretBundle : SecretBundle := { bundle with attributes := none }
  match attributes with
  | none => Except.error "TypeError: cannot read properties of undefined"
  | some attrs =>
    let props0 : SecretProperties := {
      vaultUrl := jsOverride parsedId.vaultUrl attrs.vaultUrl
      expiresOn := attrs.expires
      createdOn := attrs.created
      updatedOn := attrs.updated
      value := secretBundle.value
      id := secretBundle.id
      contentType := secretBundle.contentType
      managed := secretBundle.managed
      deletedDate := secretBundle.deletedDate
      recoveryId := secretBundle.recoveryId
      scheduledPurgeDate := secretBundle.scheduledPurgeDate
      name := parsedId.name
      version := parsedId.version
      enabled := attrs.enabled
      notBefore := attrs.notBefore
      expires := attrs.expires
      created := attrs.created
      updated := attrs.updated
      deletedOn := none }
    let props1 := match secretBundle.deletedDate with
      | some d => { props0 with deletedOn := some d, deletedDate := none }
      | none => props0
    let props2 := if jsTruthyStr attrs.vaultUrl then { props1 with vaultUrl := none } else props1
    let props3 := if attrs.expires.isSome then { props2 with expires := none } else props2
    let props4 := if attrs.created.isSome then { props3 with created := none } else props3
    let props5 := if attrs.updated.isSome then { props4 with updated := none } else props4
    Except.ok ({ value := secretBundle.value, name := parsedId.name, properties := props5 },
               secretBundle)

/-! ## Pagination

`listPropertiesOfSecretsPage` (index.ts 702-733),
`listPropertiesOfSecretVersionsPage` (609-646) and `listDeletedSecretsPage`
(787-817) share one generator shape: if the continuation token `== null`,
fetch a first page, store its `nextLink` as the token and, when the
response has a `value` array, yield the mapped items; then, while the token
is truthy, fetch the next page, store its `nextLink`, and yield the mapped
items when there is a `value` array, breaking otherwise.

The server is modelled as the finite list of page responses it returns to
the successive fetches issued by one run of the generator (the request
contents -- vault URL, `maxresults` page-size hint, continuation token --
determine those responses and are quantified over in this way); a run that
exhausts the list ends there.  A run returns the list of yielded pages and
the number of fetches issued; a thrown per-item mapping error aborts the
run, as the JS `Array.prototype.map` inside `yield` would. -/

/-- One page response of a Key Vault list endpoint. -/
structure PageResponse where
  value : Option (List SecretBundle) := none
  nextLink : Option String := none
deriving DecidableEq

/-- The `while (continuationState.continuationToken)` loop of the page
generators: given the current token and the queue of remaining server
responses, return the yielded pages and the number of fetches. -/
def listPageWhile {α : Type} (mapPage : List SecretBundle → Except String α)
    (token : Option String) : List PageResponse → Except String (List α × Nat)
  | [] => Except.ok ([], 0)
  | r :: rest =>
    if jsTruthyStr token then
      match r.value with
      | some v =>
        match mapPage v with
        | Except.error e => Except.error e
        | Except.ok page =>
          match listPageWhile mapPage r.nextLink rest with
          | Except.error e => Except.error e
          | Except.ok (ps, n) => Except.ok (page :: ps, n + 1)
      | none => Except.ok ([], 1)
    else Except.ok ([], 0)

/-- A full run of a page generator: the first-fetch block guarded by
`continuationToken == null`, followed by the while loop. -/
def listPageGen {α : Type} (mapPage : List SecretBundle → Except String α)
    (settingsToken : Option String) (responses : List PageResponse) :
    Except String (List α × Nat) :=
  match settingsToken with
  | none =>
    match responses with
    | [] => Except.ok ([], 0)
    | r :: rest =>
      match (match r.value with
             | some v => (mapPage v).map (fun p => [p])
             | none => Except.ok []) with
      | Except.error e => Except.error e
      | Except.ok firstPages =>
        match listPageWhile mapPage r.nextLink rest with
        | Except.error e => Except.error e
        | Except.ok (ps, n) => Except.ok (firstPages ++ ps, n + 1)
  | some _ => listPageWhile mapPage settingsToken responses

/-- Per-page item mapping of the secret and secret-version listings:
`value.map((bundle) => this.getSecretFromSecretBundle(bundle).properties)`. -/
def mapPageSecretProperties (v : List SecretBundle) : Except String (List SecretProperties) :=
  v.mapM (fun bundle => (getSecretFromSecretBundle bundle).map (fun r => r.1.properties))

/-- Per-page item mapping of the deleted-secret listing:
`value.map((bundle) => this.getSecretFromSecretBundle(bundle))`. -/
def mapPageDeletedSecrets (v : List SecretBundle) : Except String (List KeyVaultSecret) :=
  v.mapM (fun bundle => (getSecretFromSecretBundle bundle).map (fun r => r.1))

/-- `SecretClient.listPropertiesOfSecretsPage` (index.ts 702-733). -/
def listPropertiesOfSecretsPage (settingsToken : Option String)
    (responses : List PageResponse) : Except String (List (List SecretProperties) × Nat) :=
  listPageGen mapPageSecretProperties settingsToken responses

/-- `SecretClient.listPropertiesOfSecretVersionsPage` (index.ts 609-646);
the secret name only shapes the request URL, which the response list
already accounts for. -/
def listPropertiesOfSecretVersionsPage (_secretName : String) (settingsToken : Option String)
    (responses : List PageResponse) : Except String (List (List SecretProperties) × Nat) :=
  listPageGen mapPageSecretProperties settingsToken responses

/-- `SecretClient.listDeletedSecretsPage` (index.ts 787-817). -/
def listDeletedSecretsPage (settingsToken : Option String)
    (responses : List PageResponse) : Except String (List (List KeyVaultSecret) × Nat) :=
  listPageGen mapPageDeletedSecrets settingsToken responses

/-- The nested `for await (const page of ...) for (const item of page)
yield item` loops of the `...All` generators. -/
def yieldAllItems {α : Type} : List (List α) → List α
  | [] => []
  | p :: ps => p ++ yieldAllItems ps

/-- `SecretClient.listPropertiesOfSecretsAll` (index.ts 735-745): iterate
the page generator started from a fresh `{}` state and yield the items of
each page. -/
def listPropertiesOfSecretsAll (responses : List PageResponse) :
    Except String (List SecretProperties × Nat) :=
  (listPropertiesOfSecretsPage none responses).map (fun r => (yieldAllItems r.1, r.2))

/-- `SecretClient.listPropertiesOfSecretVersionsAll` (index.ts 648-659). -/
def listPropertiesOfSecretVersionsAll (secretName : String) (responses : List PageResponse) :
    Except String (List SecretProperties × Nat) :=
  (listPropertiesOfSecretVersionsPage secretName none responses).map
    (fun r => (yieldAllItems r.1, r.2))

/-- `SecretClient.listDeletedSecretsAll` (index.ts 819-829). -/
def listDeletedSecretsAll (responses : List PageResponse) :
    Except String (List KeyVaultSecret × Nat) :=
  (listDeletedSecretsPage none responses).map (fun r => (yieldAllItems r.1, r.2))

/-! ## Client constructors -/

/-- An opaque credential capability (`TokenCredential`). -/
structure Credential where
  label : String := ""
deriving DecidableEq

/-- `UserAgentOptions` of the pipeline options. -/
structure UserAgentOptions where
  userAgentPrefix : Option String := none
deriving DecidableEq

/-- The slice of `PipelineOptions` the `SecretClient` constructor touches. -/
structure PipelineOptions where
  userAgentOptions : Option UserAgentOptions := none
deriving DecidableEq

/-- Post-construction state of a `SecretClient`. -/
structure SecretClientState where
  vaultUrl : Option String := none
  credential : Option Credential := none
  pipelineOptions : PipelineOptions := {}
deriving DecidableEq

/-- `SecretClient` constructor (index.ts lines 136-177).  `SDK_VERSION` is
imported from `./core/utils/constants`, which is not under src/, so the
model takes it as a parameter.  The constructor stores `vaultUrl` and
`credential` without validating either, then runs the user-agent block: when
`pipelineOptions.userAgentOptions` is present, the source evaluates a
conditional expression whose value is discarded (no assignment), leaving the
caller-supplied options untouched; when it is absent, it installs
`userAgentPrefix: libInfo`.  The remaining statements build the pipeline and
the inner `KeyVaultClient` (code outside src/) and throw nothing that
depends on `vaultUrl`; the result type still allows `Except.error` so that
the absence of a synchronous construction-time validation error is a stated
fact rather than a typing accident. -/
def secretClientConstructor (sdkVersion : String) (vaultUrl : Option String)
    (credential : Option Credential) (pipelineOptions : PipelineOptions) :
    Except String SecretClientState :=
  let libInfo := "azsdk-js-keyvault-secrets/" ++ sdkVersion
  let pipelineOptions' :=
    match pipelineOptions.userAgentOptions with
    | some u =>
      let _discarded :=
        match u.userAgentPrefix with
        | some p => p ++ " " ++ libInfo
        | none => libInfo
      pipelineOptions
    | none => { pipelineOptions with userAgentOptions := some { userAgentPrefix := some libInfo } }
  Except.ok { vaultUrl := vaultUrl, credential := credential, pipelineOptions := pipelineOptions' }

/-- The slice of `WorkloadsClientOptionalParams` the constructor reads
(`$host` is modelled as `hostOption`). -/
structure WorkloadsClientOptionalParams where
  apiVersion : Option String := none
  endpoint : Option String := none
  baseUri : Option String := none
  hostOption : Option String := none
  userAgentOptions : Option UserAgentOptions := none
deriving DecidableEq

/-- Post-construction state of a `WorkloadsClient`. -/
structure WorkloadsClientState where
  host : String
  subscriptionId : String
  apiVersion : String
  userAgentPrefix : String
  baseUri : String
  apiVersionPolicy : Option (List Char → List Char)

/-- `WorkloadsClient` constructor (src/unnamed/part_000, lines 66-148):
throw synchronously when `credentials` or `subscriptionId` is `undefined`;
otherwise compute the user-agent string, resolve the base URI, assign
`subscriptionId`, default `$host` and `apiVersion`, and install the custom
api-version policy for `options.apiVersion`. -/
def workloadsClientConstructor (credentials : Option Credential)
    (subscriptionId : Option String) (options0 : Option WorkloadsClientOptionalParams) :
    Except String WorkloadsClientState :=
  match credentials with
  | none => Except.error "credentials cannot be null"
  | some _ =>
    match subscriptionId with
    | none => Except.error "subscriptionId cannot be null"
    | some subId =>
      let options := options0.getD {}
      let packageDetails := "azsdk-js-arm-workloads/1.0.0-beta.1"
      let uap := options.userAgentOptions.bind (fun u => u.userAgentPrefix)
      let userAgent :=
        match uap with
        | some p => if p = "" then packageDetails else p ++ " " ++ packageDetails
        | none => packageDetails
      let baseUri := ((options.endpoint).orElse (fun _ => options.baseUri)).getD
        "https://management.azure.com"
      Except.ok {
        host := jsOrStr options.hostOption "https://management.azure.com"
        subscriptionId := subId
        apiVersion := jsOrStr options.apiVersion "2021-12-01-preview"
        userAgentPrefix := userAgent
        baseUri := baseUri
        apiVersionPolicy := workloadsAddCustomApiVersionPolicy options.apiVersion }

/-- The slice of `PaloAltoNetworksCloudngfwOptionalParams` the constructor
reads. -/
structure NgfwOptionalParams where
  apiVersion : Option String := none
  endpoint : Option String := none
  baseUri : Option String := none
  hostOption : Option String := none
  userAgentOptions : Option UserAgentOptions := none
deriving DecidableEq

/-- Post-construction state of a `PaloAltoNetworksCloudngfw` client. -/
structure NgfwClientState where
  host : String
  subscriptionId : Option String
  apiVersion : String
  userAgentPrefix : String
  endpoint : String
  apiVersionPolicy : Option (List Char → List Char)

/-- `PaloAltoNetworksCloudngfw` constructor (index.ts lines 1019-1118):
throw synchronously when `credentials` is `undefined`; the second argument
is either a subscription id or the options bag (the subscription id is
optional); then compute the user-agent string, resolve the endpoint, assign
the optional `subscriptionId`, default `$host` and `apiVersion`, and install
the custom api-version policy for `options.apiVersion`. -/
def ngfwClientConstructor (credentials : Option Credential)
    (subscriptionIdOrOptions : Option (String ⊕ NgfwOptionalParams))
    (options0 : Option NgfwOptionalParams) : Except String NgfwClientState :=
  match credentials with
  | none => Except.error "credentials cannot be null"
  | some _ =>
    let subscriptionId : Option String :=
      match subscriptionIdOrOptions with
      | some (Sum.inl s) => some s
      | _ => none
    let optionsResolved : Option NgfwOptionalParams :=
      match subscriptionIdOrOptions with
      | some (Sum.inr o) => some o
      | _ => options0
    let options := optionsResolved.getD {}
    let packageDetails := "azsdk-js-arm-paloaltonetworksngfw/1.0.0"
    let uap := options.userAgentOptions.bind (fun u => u.userAgentPrefix)
    let userAgent :=
      match uap with
      | some p => if p = "" then packageDetails else p ++ " " ++ packageDetails
      | none => packageDetails
    let endpoint := ((options.endpoint).orElse (fun _ => options.baseUri)).getD
      "https://management.azure.com"
    Except.ok {
      host := jsOrStr options.hostOption "https://management.azure.com"
      subscriptionId := subscriptionId
      apiVersion := jsOrStr options.apiVersion "2022-08-29"
      userAgentPrefix := userAgent
      endpoint := endpoint
      apiVersionPolicy := ngfwAddCustomApiVersionPolicy options.apiVersion }

/-- Whether an `Except` value is a success (no throw). -/
def exceptIsOk {ε α : Type} : Except ε α → Bool
  | Except.ok _ => true
  | Except.error _ => false

/-! ## Delete / recover secret poller

Modelled from the spec: `DeleteSecretPoller` and
`RecoverDeletedSecretPoller` live under `./lro/delete/poller` and
`./lro/recover/poller`, which are not under src/ (src/ only shows
`beginDeleteSecret` / `beginRecoverDeletedSecret` creating the poller and
issuing the first `poll()`).  Spec section 4.2: states are
`NotStarted -> InProgress -> Succeeded | Failed` (terminal); from
`NotStarted` the first poll issues the delete (or recover) request;
subsequent polls probe the target resource with a `get`, reaching
`Succeeded` once the resource is observable in the expected state, staying
`InProgress` on a not-found probe, and `Failed` on a non-not-found probe
error; `poll()` performs at most one network round trip; once terminal, no
further polling occurs. -/

inductive PollerStatus where
  | notStarted
  | inProgress
  | succeeded
  | failed
deriving DecidableEq

/-- Whether a poller status is terminal. -/
def PollerStatus.isTerminal : PollerStatus → Bool
  | PollerStatus.succeeded => true
  | PollerStatus.failed => true
  | _ => false

/-- Progress rank of a status along
`NotStarted -> InProgress -> Succeeded | Failed`. -/
def PollerStatus.rank : PollerStatus → Nat
  | PollerStatus.notStarted => 0
  | PollerStatus.inProgress => 1
  | PollerStatus.succeeded => 2
  | PollerStatus.failed => 2

/-- Outcome of one completion probe against the target resource. -/
inductive ProbeOutcome where
  | resourceObservable
  | notFoundYet
  | probeError
deriving DecidableEq

/-- Modelled from the spec: serializable poller state, capturing the target
resource name and the lifecycle status. -/
structure PollerState where
  name : String
  status : PollerStatus
deriving DecidableEq

/-- Modelled from the spec: one `poll()` step.  Returns the updated state
and whether a network request was issued (at most one round trip). -/
def pollOnce (outcome : ProbeOutcome) (s : PollerState) : PollerState × Bool :=
  match s.status with
  | PollerStatus.succeeded => (s, false)
  | PollerStatus.failed => (s, false)
  | PollerStatus.notStarted => ({ s with status := PollerStatus.inProgress }, true)
  | PollerStatus.inProgress =>
    match outcome with
    | ProbeOutcome.resourceObservable => ({ s with status := PollerStatus.succeeded }, true)
    | ProbeOutcome.notFoundYet => (s, true)
    | ProbeOutcome.probeError => ({ s with status := PollerStatus.failed }, true)

/-- Modelled from the spec: a sequence of `poll()` steps
(`pollUntilDone` drives such a sequence).  Returns the final state and the
number of network requests issued. -/
def runPolls : List ProbeOutcome → PollerState → PollerState × Nat
  | [], s => (s, 0)
  | o :: os, s =>
    let step := pollOnce o s
    let rest := runPolls os step.1
    (rest.1, (if step.2 then 1 else 0) + rest.2)

/-! ## Concrete inputs used by counterexamples and witnesses -/

/-- A page response the run consumes before reaching the final one: its
bundles, its (truthy) next-link, and the page its bundles map to. -/
structure GoodPage (α : Type) where
  bundles : List SecretBundle
  nextLink : Option String
  page : α

/-- A well-formed secret bundle (attributes object present). -/
def exampleSecretBundle : SecretBundle :=
  { value := some "ABC123"
    id := some "https://myvault.vault.azure.net/secrets/MySecretName/abc123"
    attributes := some { enabled := some true, created := some 100, updated := some 200 } }

/-- The client secret produced from `exampleSecretBundle`. -/
def exampleClientSecret : KeyVaultSecret :=
  match getSecretFromSecretBundle exampleSecretBundle with
  | Except.ok r => r.1
  | Except.error _ => {}

/-- The properties object produced from `exampleSecretBundle`. -/
def exampleSecretProperties : SecretProperties :=
  match getSecretFromSecretBundle exampleSecretBundle with
  | Except.ok r => r.1.properties
  | Except.error _ => {}

/-- The post-call state of the argument of
`getSecretFromSecretBundle exampleSecretBundle`. -/
def exampleBundleAfterCall : SecretBundle :=
  match getSecretFromSecretBundle exampleSecretBundle with
  | Except.ok r => r.2
  | Except.error _ => {}

/-- Server responses where the second fetched response carries a next-link
but no `value` array, with a third response still available. -/
def c2Responses : List PageResponse :=
  [{ value := some [exampleSecretBundle], nextLink := some "L" },
   { value := none, nextLink := some "L2" },
   { value := some [exampleSecretBundle], nextLink := none }]

/-- Server responses where the very first response has no `value` array but
carries a next-link, and the second response still holds an item. -/
def c3Responses : List PageResponse :=
  [{ value := none, nextLink := some "L" },
   { value := some [exampleSecretBundle], nextLink := none }]

/-- A two-page run used to instantiate the page/flattened comparison. -/
def c4Responses : List PageResponse :=
  [{ value := some [exampleSecretBundle], nextLink := some "N" },
   { value := some [], nextLink := none }]

/-- A bundle carrying every renamed timestamp field. -/
def c6Bundle : SecretBundle :=
  { id := some "https://myvault.vault.azure.net/secrets/S/V"
    attributes := some { expires := some 1, created := some 2, updated := some 3 }
    deletedDate := some 4 }

/-- The client secret produced from `c6Bundle`. -/
def c6Secret : KeyVaultSecret :=
  match getSecretFromSecretBundle c6Bundle with
  | Except.ok r => r.1
  | Except.error _ => {}

/-- The post-call argument state of `getSecretFromSecretBundle c6Bundle`. -/
def c6BundleAfter : SecretBundle :=
  match getSecretFromSecretBundle c6Bundle with
  | Except.ok r => r.2
  | Except.error _ => {}

/-- The deleted-secrets page response of the spec example, verbatim: two
bundles holding only identifiers, and no next-link. -/
def c7SpecExampleResponse : PageResponse :=
  { value := some [{ id := some "https://myvault.vault.azure.net/deletedsecrets/A" },
                   { id := some "https://myvault.vault.azure.net/deletedsecrets/B" }]
    nextLink := none }

/-- The same scenario with an attributes object present on each bundle. -/
def c7AttributedResponse : PageResponse :=
  { value := some [{ id := some "https://myvault.vault.azure.net/deletedsecrets/A"
                     attributes := some {} },
                   { id := some "https://myvault.vault.azure.net/deletedsecrets/B"
                     attributes := some {} }]
    nextLink := none }

/-- Caller-supplied pipeline options carrying user-agent options. -/
def c10Options : PipelineOptions :=
  { userAgentOptions := some { userAgentPrefix := some "mine" } }

/-- The client state built from `c10Options`. -/
def c10StateSupplied : SecretClientState :=
  match secretClientConstructor "4.0.0" (some "https://v.example.net") (some {}) c10Options with
  | Except.ok st => st
  | Except.error _ => {}

/-- The client state built with user-agent options omitted. -/
def c10StateOmitted : SecretClientState :=
  match secretClientConstructor "4.0.0" (some "https://v.example.net") (some {}) {} with
  | Except.ok st => st
  | Except.error _ => {}

/-! ## Lemmas about the JS string primitives -/

theorem jsSplitChar_ne_nil (sep : Char) (cs : List Char) : jsSplitChar sep cs ≠ [] := by
  induction cs with
  | nil => simp [jsSplitChar]
  | cons c cs ih =>
    simp only [jsSplitChar]
    split
    · simp
    · split
      · simp
      · simp

theorem jsSplitChar_no_sep (sep : Char) (a : List Char) (h : sep ∉ a) :
    jsSplitChar sep a = [a] := by
  induction a with
  | nil => rfl
  | cons c cs ih =>
    have hc : ¬ c = sep := fun e => h (e ▸ List.mem_cons_self c cs)
    have hcs : sep ∉ cs := fun m => h (List.mem_cons_of_mem _ m)
    simp only [jsSplitChar, if_neg hc, ih hcs]

theorem jsSplitChar_append (sep : Char) (a b : List Char) (h : sep ∉ a) :
    jsSplitChar sep (a ++ sep :: b) = a :: jsSplitChar sep b := by
  induction a with
  | nil => simp [jsSplitChar]
  | cons c cs ih =>
    have hc : ¬ c = sep := fun e => h (e ▸ List.mem_cons_self c cs)
    have hcs : sep ∉ cs := fun m => h (List.mem_cons_of_mem _ m)
    simp only [List.cons_append, jsSplitChar, if_neg hc, List.append_eq]
    rw [ih hcs]

theorem jsJoin_cons_cons (sep : List Char) (a b : List Char) (t : List (List Char)) :
    jsJoin sep (a :: b :: t) = a ++ sep ++ jsJoin sep (b :: t) := rfl

theorem jsSplitChar_jsJoin (sep : Char) (items : List (List Char)) (hne : items ≠ [])
    (h : ∀ it ∈ items, sep ∉ it) : jsSplitChar sep (jsJoin [sep] items) = items := by
  induction items with
  | nil => cases hne rfl
  | cons a rest ih =>
    cases rest with
    | nil => simpa [jsJoin] using jsSplitChar_no_sep sep a (h a (by simp))
    | cons b t =>
      rw [jsJoin_cons_cons, List.append_assoc, List.singleton_append,
        jsSplitChar_append sep a _ (h a (by simp)),
        ih (by simp) (fun it hit => h it (by simp [hit]))]

theorem not_mem_jsJoin (c sep : Char) (items : List (List Char)) (hcs : c ≠ sep)
    (h : ∀ it ∈ items, c ∉ it) : c ∉ jsJoin [sep] items := by
  induction items with
  | nil => simp [jsJoin]
  | cons a rest ih =>
    cases rest with
    | nil => simpa [jsJoin] using h a (by simp)
    | cons b t =>
      intro hmem
      rw [jsJoin_cons_cons, List.append_assoc, List.singleton_append] at hmem
      rcases List.mem_append.mp hmem with h1 | h2
      · exact h a (by simp) h1
      · rcases List.mem_cons.mp h2 with h3 | h4
        · exact hcs h3
        · exact ih (fun it hit => h it (by simp [hit])) h4

theorem customApiVersionSendRequestUrl_query (rw0 : List Char → List Char)
    (base : List Char) (items : List (List Char)) (hbase : '?' ∉ base) (hne : items ≠ [])
    (hitems : ∀ it ∈ items, '?' ∉ it ∧ '&' ∉ it) :
    customApiVersionSendRequestUrl rw0 (base ++ '?' :: jsJoin ['&'] items)
      = base ++ '?' :: jsJoin ['&'] (items.map rw0) := by
  have hq : '?' ∉ jsJoin ['&'] items :=
    not_mem_jsJoin '?' '&' items (by decide) (fun it hit => (hitems it hit).1)
  unfold customApiVersionSendRequestUrl
  rw [jsSplitChar_append '?' base _ hbase, jsSplitChar_no_sep '?' _ hq]
  simp only [List.length_cons, List.length_nil]
  rw [if_pos (by omega)]
  simp only [List.getD, List.get?, Option.getD_some]
  rw [jsSplitChar_jsJoin '&' items hne (fun it hit => (hitems it hit).2)]

theorem startsWithChars_append_self (l t : List Char) : startsWithChars l (l ++ t) = true := by
  induction l with
  | nil => rfl
  | cons a as ih => simp [startsWithChars, ih]

theorem containsSub_append_self (n t : List Char) : containsSub n (n ++ t) = true := by
  cases n with
  | nil => cases t <;> simp [containsSub, startsWithChars]
  | cons a as =>
    show (startsWithChars (a :: as) (a :: (as ++ t)) || containsSub (a :: as) (as ++ t)) = true
    rw [← List.cons_append, startsWithChars_append_self]
    exact Bool.true_or _

theorem replaceAfterEq_of_prefix (v pre rest : List Char) (h : '=' ∉ pre) :
    replaceAfterEq v (pre ++ '=' :: rest) = pre ++ '=' :: v := by
  induction pre with
  | nil => simp [replaceAfterEq]
  | cons c cs ih =>
    have hc : ¬ c = '=' := fun e => h (e ▸ List.mem_cons_self c cs)
    have hcs : '=' ∉ cs := fun m => h (List.mem_cons_of_mem _ m)
    simp [replaceAfterEq, if_neg hc, ih hcs]

theorem apiVersionItem_decomp (old : List Char) :
    apiVersionItem old = "api-version".data ++ '=' :: old := by
  unfold apiVersionItem
  rw [show "api-version=".data = "api-version".data ++ ['='] from by decide, List.append_assoc]
  rfl

theorem containsSub_apiVersionItem (old : List Char) :
    containsSub "api-version".data (apiVersionItem old) = true := by
  rw [apiVersionItem_decomp]
  exact containsSub_append_self _ _

theorem workloadsRewriteItem_apiVersion (v old : List Char) :
    workloadsRewriteItem v (apiVersionItem old) = apiVersionItem v := by
  unfold workloadsRewriteItem
  rw [if_pos (containsSub_apiVersionItem old), apiVersionItem_decomp,
    replaceAfterEq_of_prefix v _ old (by decide), ← apiVersionItem_decomp]

theorem ngfwRewriteItem_apiVersion (v old : List Char) :
    ngfwRewriteItem v (apiVersionItem old) = apiVersionItem v := by
  unfold ngfwRewriteItem
  rw [if_pos (containsSub_apiVersionItem old)]
  rfl

/-- C1: for a client constructed with a configured (truthy) API version, the
custom api-version pipeline policy is installed, and its `sendRequest`
rewrites the `api-version` query parameter of the outgoing request URL to
the configured version before the request is forwarded, for both the
`WorkloadsClient` variant (which keeps the parameter name and replaces the
text after `=`) and the `PaloAltoNetworksCloudngfw` variant (which replaces
the whole item), whatever api-version value the caller-supplied URL already
carried and whatever the surrounding query parameters are. -/
theorem c1_custom_api_version_policy_rewrites (v : String) (old base : List Char)
    (pre post : List (List Char)) (hv : v ≠ "") (hbase : '?' ∉ base)
    (hpre : ∀ it ∈ pre, '?' ∉ it ∧ '&' ∉ it) (hpost : ∀ it ∈ post, '?' ∉ it ∧ '&' ∉ it)
    (hold : '?' ∉ old ∧ '&' ∉ old) :
    workloadsAddCustomApiVersionPolicy (some v)
        = some (customApiVersionSendRequestUrl (workloadsRewriteItem v.data))
    ∧ ngfwAddCustomApiVersionPolicy (some v)
        = some (customApiVersionSendRequestUrl (ngfwRewriteItem v.data))
    ∧ customApiVersionSendRequestUrl (workloadsRewriteItem v.data)
        (base ++ '?' :: jsJoin ['&'] (pre ++ apiVersionItem old :: post))
      = base ++ '?' :: jsJoin ['&']
          (pre.map (workloadsRewriteItem v.data) ++ apiVersionItem v.data ::
            post.map (workloadsRewriteItem v.data))
    ∧ customApiVersionSendRequestUrl (ngfwRewriteItem v.data)
        (base ++ '?' :: jsJoin ['&'] (pre ++ apiVersionItem old :: post))
      = base ++ '?' :: jsJoin ['&']
          (pre.map (ngfwRewriteItem v.data) ++ apiVersionItem v.data ::
            post.map (ngfwRewriteItem v.data)) := by
  have h1 : '?' ∉ apiVersionItem old := by
    rw [apiVersionItem_decomp]
    intro hmem
    rcases List.mem_append.mp hmem with hm | hm
    · revert hm; decide
    · rcases List.mem_cons.mp hm with hm | hm
      · cases hm
      · exact hold.1 hm
  have h2 : '&' ∉ apiVersionItem old := by
    rw [apiVersionItem_decomp]
    intro hmem
    rcases List.mem_append.mp hmem with hm | hm
    · revert hm; decide
    · rcases List.mem_cons.mp hm with hm | hm
      · cases hm
      · exact hold.2 hm
  have hitems : ∀ it ∈ pre ++ apiVersionItem old :: post, '?' ∉ it ∧ '&' ∉ it := by
    intro it hit
    rcases List.mem_append.mp hit with hm | hm
    · exact hpre it hm
    · rcases List.mem_cons.mp hm with hm | hm
      · subst hm; exact ⟨h1, h2⟩
      · exact hpost it hm
  have hne : pre ++ apiVersionItem old :: post ≠ [] := by
    cases pre <;> simp
  refine ⟨by simp [workloadsAddCustomApiVersionPolicy, hv],
          by simp [ngfwAddCustomApiVersionPolicy, hv], ?_, ?_⟩
  · rw [customApiVersionSendRequestUrl_query _ base _ hbase hne hitems]
    simp [List.map_append, workloadsRewriteItem_apiVersion]
  · rw [customApiVersionSendRequestUrl_query _ base _ hbase hne hitems]
    simp [List.map_append, ngfwRewriteItem_apiVersion]


theorem c1_custom_api_version_policy_rewrites_witness :
    workloadsAddCustomApiVersionPolicy (some "2021-12-01-preview")
        = some (customApiVersionSendRequestUrl (workloadsRewriteItem "2021-12-01-preview".data))
    ∧ customApiVersionSendRequestUrl (workloadsRewriteItem "2021-12-01-preview".data)
        "https://management.azure.com/subscriptions/s?api-version=2020-01-01&a=b".data
      = "https://management.azure.com/subscriptions/s?api-version=2021-12-01-preview&a=b".data
    ∧ customApiVersionSendRequestUrl (ngfwRewriteItem "2021-12-01-preview".data)
        "https://management.azure.com/subscriptions/s?api-version=2020-01-01&a=b".data
      = "https://management.azure.com/subscriptions/s?api-version=2021-12-01-preview&a=b".data := by
  have h := c1_custom_api_version_policy_rewrites "2021-12-01-preview" "2020-01-01".data
    "https://management.azure.com/subscriptions/s".data [] ["a=b".data]
    (by decide) (by decide) (by intro it hit; cases hit)
    (by intro it hit
        rcases List.mem_cons.mp hit with hm | hm
        · subst hm; exact ⟨by decide, by decide⟩
        · cases hm)
    ⟨by decide, by decide⟩
  have e1 : "https://management.azure.com/subscriptions/s?api-version=2020-01-01&a=b".data
      = "https://management.azure.com/subscriptions/s".data
        ++ '?' :: jsJoin ['&'] ([] ++ apiVersionItem "2020-01-01".data :: ["a=b".data]) := by
    decide
  refine ⟨h.1, ?_, ?_⟩
  · rw [e1, h.2.2.1]; decide
  · rw [e1, h.2.2.2]; decide

/-! ## Lemmas about the page generators -/

theorem listPageWhile_not_truthy {α : Type} (f : List SecretBundle → Except String α)
    (tok : Option String) (rs : List PageResponse) (h : jsTruthyStr tok = false) :
    listPageWhile f tok rs = Except.ok ([], 0) := by
  cases rs with
  | nil => rfl
  | cons r rest => simp [listPageWhile, h]

theorem listPageWhile_reaches_last {α : Type} (f : List SecretBundle → Except String α)
    (front : List (GoodPage α)) (v : List SecretBundle) (page : α) (nl tok : Option String)
    (extra : List PageResponse)
    (htok : jsTruthyStr tok = true)
    (hfront : ∀ g ∈ front, jsTruthyStr g.nextLink = true ∧ f g.bundles = Except.ok g.page)
    (hnl : jsTruthyStr nl = false) (hf : f v = Except.ok page) :
    listPageWhile f tok
        (front.map (fun g => { value := some g.bundles, nextLink := g.nextLink })
          ++ { value := some v, nextLink := nl } :: extra)
      = Except.ok (front.map (fun g => g.page) ++ [page], front.length + 1) := by
  induction front generalizing tok with
  | nil =>
    simp only [List.map_nil, List.nil_append, List.length_nil]
    rw [listPageWhile]
    simp [htok, hf, listPageWhile_not_truthy f nl extra hnl]
  | cons g front' ih =>
    obtain ⟨hg1, hg2⟩ := hfront g (List.mem_cons_self g front')
    have hfront' : ∀ g0 ∈ front', jsTruthyStr g0.nextLink = true ∧ f g0.bundles = Except.ok g0.page :=
      fun g0 hg0 => hfront g0 (List.mem_cons_of_mem _ hg0)
    simp only [List.map_cons, List.cons_append, List.length_cons]
    rw [listPageWhile]
    simp only [htok, if_true, hg2]
    rw [ih g.nextLink hg1 hfront']

theorem listPageGen_reaches_last {α : Type} (f : List SecretBundle → Except String α)
    (front : List (GoodPage α)) (v : List SecretBundle) (page : α) (nl : Option String)
    (extra : List PageResponse)
    (hfront : ∀ g ∈ front, jsTruthyStr g.nextLink = true ∧ f g.bundles = Except.ok g.page)
    (hnl : jsTruthyStr nl = false) (hf : f v = Except.ok page) :
    listPageGen f none
        (front.map (fun g => { value := some g.bundles, nextLink := g.nextLink })
          ++ { value := some v, nextLink := nl } :: extra)
      = Except.ok (front.map (fun g => g.page) ++ [page], front.length + 1) := by
  cases front with
  | nil =>
    simp only [List.map_nil, List.nil_append, List.length_nil]
    simp [listPageGen, hf, Except.map, listPageWhile_not_truthy f nl extra hnl]
  | cons g front' =>
    obtain ⟨hg1, hg2⟩ := hfront g (List.mem_cons_self g front')
    have hfront' : ∀ g0 ∈ front',
        jsTruthyStr g0.nextLink = true ∧ f g0.bundles = Except.ok g0.page :=
      fun g0 hg0 => hfront g0 (List.mem_cons_of_mem _ hg0)
    simp only [List.map_cons, List.cons_append, List.length_cons]
    simp only [listPageGen, hg2, Except.map]
    rw [listPageWhile_reaches_last f front' v page nl g.nextLink extra hg1 hfront' hnl hf]
    rfl

theorem listPageGen_first_no_value {α : Type} (f : List SecretBundle → Except String α)
    (nl : Option String) (rest : List PageResponse) (hnl : jsTruthyStr nl = false) :
    listPageGen f none ({ value := none, nextLink := nl } :: rest) = Except.ok ([], 1) := by
  simp [listPageGen, listPageWhile_not_truthy f nl rest hnl]

theorem yieldAllItems_eq_flatten {α : Type} (pages : List (List α)) :
    yieldAllItems pages = pages.flatten := by
  induction pages with
  | nil => rfl
  | cons p ps ih => simp [yieldAllItems, ih, List.flatten]

/-- C2 (amended): for every paginated list operation of the `SecretClient`,
a fetched page response carrying no (truthy) next-link ends the page
sequence: that page's items (possibly an empty array) are still yielded and
no further fetch is issued afterwards, whatever responses the server would
still have returned.  (As stated, the claim also asserted the converse --
that the sequence ends only at a response without a next-link -- but a
non-first response without a `value` array ends the sequence even when it
carries a next-link; see the counterexample.) -/
theorem c2_page_sequence_ends_at_missing_next_link :
    (∀ (front : List (GoodPage (List SecretProperties))) (v : List SecretBundle)
        (page : List SecretProperties) (nl : Option String) (extra : List PageResponse),
      (∀ g ∈ front, jsTruthyStr g.nextLink = true
          ∧ mapPageSecretProperties g.bundles = Except.ok g.page) →
      jsTruthyStr nl = false → mapPageSecretProperties v = Except.ok page →
      listPropertiesOfSecretsPage none
          (front.map (fun g => { value := some g.bundles, nextLink := g.nextLink })
            ++ { value := some v, nextLink := nl } :: extra)
        = Except.ok (front.map (fun g => g.page) ++ [page], front.length + 1))
    ∧ (∀ (name : String) (front : List (GoodPage (List SecretProperties)))
        (v : List SecretBundle) (page : List SecretProperties) (nl : Option String)
        (extra : List PageResponse),
      (∀ g ∈ front, jsTruthyStr g.nextLink = true
          ∧ mapPageSecretProperties g.bundles = Except.ok g.page) →
      jsTruthyStr nl = false → mapPageSecretProperties v = Except.ok page →
      listPropertiesOfSecretVersionsPage name none
          (front.map (fun g => { value := some g.bundles, nextLink := g.nextLink })
            ++ { value := some v, nextLink := nl } :: extra)
        = Except.ok (front.map (fun g => g.page) ++ [page], front.length + 1))
    ∧ (∀ (front : List (GoodPage (List KeyVaultSecret))) (v : List SecretBundle)
        (page : List KeyVaultSecret) (nl : Option String) (extra : List PageResponse),
      (∀ g ∈ front, jsTruthyStr g.nextLink = true
          ∧ mapPageDeletedSecrets g.bundles = Except.ok g.page) →
      jsTruthyStr nl = false → mapPageDeletedSecrets v = Except.ok page →
      listDeletedSecretsPage none
          (front.map (fun g => { value := some g.bundles, nextLink := g.nextLink })
            ++ { value := some v, nextLink := nl } :: extra)
        = Except.ok (front.map (fun g => g.page) ++ [page], front.length + 1)) :=
  ⟨fun front v page nl extra hfront hnl hf =>
      listPageGen_reaches_last mapPageSecretProperties front v page nl extra hfront hnl hf,
   fun _name front v page nl extra hfront hnl hf =>
      listPageGen_reaches_last mapPageSecretProperties front v page nl extra hfront hnl hf,
   fun front v page nl extra hfront hnl hf =>
      listPageGen_reaches_last mapPageDeletedSecrets front v page nl extra hfront hnl hf⟩

theorem c2_page_sequence_ends_at_missing_next_link_witness :
    listPropertiesOfSecretsPage none [{ value := some [], nextLink := none }]
      = Except.ok ([[]], 1) := by
  have h := c2_page_sequence_ends_at_missing_next_link.1 [] [] [] none []
    (by intro g hg; cases hg) rfl rfl
  simpa using h

theorem c2_counterexample :
    (listPropertiesOfSecretsPage none c2Responses).map (fun r => (r.1.map List.length, r.2))
        = Except.ok ([1], 2)
    ∧ (c2Responses.getD 1 {}).nextLink = some "L2"
    ∧ c2Responses.length = 3 :=
  ⟨rfl, rfl, rfl⟩

/-- C3 (amended): for every paginated list operation of the `SecretClient`,
if the very first page response contains no `value` array and no (truthy)
next-link, zero items are produced, exactly one fetch is issued, and the
sequence ends.  (As stated, the claim asserted this regardless of the rest
of the response, but a first response without a `value` array whose
next-link is present makes the generator continue fetching from that link;
see the counterexample.) -/
theorem c3_first_page_without_value :
    (∀ (nl : Option String) (rest : List PageResponse), jsTruthyStr nl = false →
      listPropertiesOfSecretsPage none ({ value := none, nextLink := nl } :: rest)
        = Except.ok ([], 1))
    ∧ (∀ (name : String) (nl : Option String) (rest : List PageResponse),
        jsTruthyStr nl = false →
      listPropertiesOfSecretVersionsPage name none ({ value := none, nextLink := nl } :: rest)
        = Except.ok ([], 1))
    ∧ (∀ (nl : Option String) (rest : List PageResponse), jsTruthyStr nl = false →
      listDeletedSecretsPage none ({ value := none, nextLink := nl } :: rest)
        = Except.ok ([], 1)) :=
  ⟨fun nl rest hnl => listPageGen_first_no_value mapPageSecretProperties nl rest hnl,
   fun _name nl rest hnl => listPageGen_first_no_value mapPageSecretProperties nl rest hnl,
   fun nl rest hnl => listPageGen_first_no_value mapPageDeletedSecrets nl rest hnl⟩

theorem c3_first_page_without_value_witness :
    listDeletedSecretsPage none [{ value := none, nextLink := none }] = Except.ok ([], 1) :=
  c3_first_page_without_value.2.2 none [] rfl

theorem c3_counterexample :
    (listPropertiesOfSecretsPage none c3Responses).map (fun r => (r.1.map List.length, r.2))
        = Except.ok ([1], 2)
    ∧ (c3Responses.getD 0 {}).value = none
    ∧ (c3Responses.getD 0 {}).nextLink = some "L" :=
  ⟨rfl, rfl, rfl⟩

/-- C4: for every paginated collection exposed by the `SecretClient` and
every finite sequence of server page responses on which a run completes,
concatenating in order the item arrays yielded by the by-page iterator
equals the item sequence produced by the flattened item-at-a-time
iterator over the same responses. -/
theorem c4_pages_concat_eq_flattened (responses : List PageResponse) :
    (∀ (pages : List (List SecretProperties)) (n : Nat) (items : List SecretProperties)
        (m : Nat),
      listPropertiesOfSecretsPage none responses = Except.ok (pages, n) →
      listPropertiesOfSecretsAll responses = Except.ok (items, m) →
      pages.flatten = items)
    ∧ (∀ (name : String) (pages : List (List SecretProperties)) (n : Nat)
        (items : List SecretProperties) (m : Nat),
      listPropertiesOfSecretVersionsPage name none responses = Except.ok (pages, n) →
      listPropertiesOfSecretVersionsAll name responses = Except.ok (items, m) →
      pages.flatten = items)
    ∧ (∀ (pages : List (List KeyVaultSecret)) (n : Nat) (items : List KeyVaultSecret)
        (m : Nat),
      listDeletedSecretsPage none responses = Except.ok (pages, n) →
      listDeletedSecretsAll responses = Except.ok (items, m) →
      pages.flatten = items) := by
  refine ⟨?_, ?_, ?_⟩
  · intro pages n items m hp ha
    unfold listPropertiesOfSecretsAll at ha
    rw [hp] at ha
    simp only [Except.map, Except.ok.injEq, Prod.mk.injEq] at ha
    rw [← ha.1, yieldAllItems_eq_flatten]
  · intro name pages n items m hp ha
    unfold listPropertiesOfSecretVersionsAll at ha
    rw [hp] at ha
    simp only [Except.map, Except.ok.injEq, Prod.mk.injEq] at ha
    rw [← ha.1, yieldAllItems_eq_flatten]
  · intro pages n items m hp ha
    unfold listDeletedSecretsAll at ha
    rw [hp] at ha
    simp only [Except.map, Except.ok.injEq, Prod.mk.injEq] at ha
    rw [← ha.1, yieldAllItems_eq_flatten]

theorem c4_pages_concat_eq_flattened_witness :
    ([[exampleSecretProperties], []] : List (List SecretProperties)).flatten
      = [exampleSecretProperties] :=
  (c4_pages_concat_eq_flattened c4Responses).1 [[exampleSecretProperties], []] 2
    [exampleSecretProperties] 2 rfl rfl

/-! ## Result shaping claims -/

/-- C5 (amended): the bundle-to-client transformation
`getSecretFromSecretBundle` is deterministic and performs no I/O, but it is
not pure in its argument: it mutates the input bundle by deleting its
`attributes` field (`delete secretBundle.attributes`); every other field of
the argument is left unchanged. -/
theorem c5_transformation_deletes_input_attributes (b : SecretBundle) (s : KeyVaultSecret)
    (b' : SecretBundle) (h : getSecretFromSecretBundle b = Except.ok (s, b')) :
    b' = { b with attributes := none } := by
  unfold getSecretFromSecretBundle at h
  cases hb : b.attributes with
  | none =>
    rw [hb] at h
    exact absurd h (by simp)
  | some attrs =>
    rw [hb] at h
    simp only [Except.ok.injEq, Prod.mk.injEq] at h
    exact h.2.symm

theorem c5_transformation_deletes_input_attributes_witness :
    exampleBundleAfterCall = { exampleSecretBundle with attributes := none } :=
  c5_transformation_deletes_input_attributes exampleSecretBundle exampleClientSecret
    exampleBundleAfterCall rfl

theorem c5_counterexample :
    (getSecretFromSecretBundle exampleSecretBundle).map (fun r => r.2.attributes)
        = Except.ok none
    ∧ exampleSecretBundle.attributes ≠ none :=
  ⟨rfl, by decide⟩

set_option maxHeartbeats 800000 in
/-- C6: for every input bundle on which `getSecretFromSecretBundle`
succeeds, the produced properties object never carries both a renamed field
and its renamed counterpart: when `expiresOn` is present `expires` is
absent, when `createdOn` is present `created` is absent, when `updatedOn`
is present `updated` is absent, and when `deletedOn` is present
`deletedDate` is absent. -/
theorem c6_no_duplicate_renamed_fields (b : SecretBundle) (s : KeyVaultSecret)
    (b' : SecretBundle) (h : getSecretFromSecretBundle b = Except.ok (s, b')) :
    (s.properties.expiresOn.isSome → s.properties.expires = none)
    ∧ (s.properties.createdOn.isSome → s.properties.created = none)
    ∧ (s.properties.updatedOn.isSome → s.properties.updated = none)
    ∧ (s.properties.deletedOn.isSome → s.properties.deletedDate = none) := by
  cases hb : b.attributes with
  | none =>
    unfold getSecretFromSecretBundle at h
    rw [hb] at h
    exact absurd h (by simp)
  | some attrs =>
    unfold getSecretFromSecretBundle at h
    rw [hb] at h
    cases hexp : attrs.expires <;> cases hcre : attrs.created <;>
      cases hupd : attrs.updated <;> cases hdel : b.deletedDate <;>
      cases hvu : jsTruthyStr attrs.vaultUrl
    all_goals
      simp only [hexp, hcre, hupd, hdel, hvu, Option.isSome_some, Option.isSome_none,
        Bool.false_eq_true, if_true, if_false, ite_true, ite_false,
        Except.ok.injEq, Prod.mk.injEq] at h
    all_goals
      obtain ⟨hs, -⟩ := h
    all_goals
      subst hs
    all_goals
      simp

theorem c6_no_duplicate_renamed_fields_witness :
    c6Secret.properties.expires = none
    ∧ c6Secret.properties.created = none
    ∧ c6Secret.properties.updated = none
    ∧ c6Secret.properties.deletedDate = none :=
  ⟨(c6_no_duplicate_renamed_fields c6Bundle c6Secret c6BundleAfter rfl).1 (by decide),
   (c6_no_duplicate_renamed_fields c6Bundle c6Secret c6BundleAfter rfl).2.1 (by decide),
   (c6_no_duplicate_renamed_fields c6Bundle c6Secret c6BundleAfter rfl).2.2.1 (by decide),
   (c6_no_duplicate_renamed_fields c6Bundle c6Secret c6BundleAfter rfl).2.2.2 (by decide)⟩

/-- C7: on the deleted-secrets page response of the spec example -- two
bundles holding only identifiers ending in `/deletedsecrets/A` and
`/deletedsecrets/B`, and a null next-link -- the page fetcher does not
yield two client secrets named `A` and `B`: because the bundles carry no
`attributes` object, the source's unguarded `(attributes as any).expires`
read throws a `TypeError` and the run fails.  With an `attributes` object
present on each bundle, the run does yield exactly the two names and
terminates after one fetch, which is the behavior the claim describes. -/
theorem c7_deleted_secrets_example_scenario :
    listDeletedSecretsPage none [c7SpecExampleResponse]
        = Except.error "TypeError: cannot read properties of undefined"
    ∧ (listDeletedSecretsPage none [c7AttributedResponse]).map
        (fun r => (r.1.map (fun p => p.map (fun s => s.name)), r.2))
      = Except.ok ([[some "A", some "B"]], 1) :=
  ⟨rfl, rfl⟩

/-! ## Constructor and poller claims -/

/-- C8 (amended): construction-time validation is client-specific.  The
`WorkloadsClient` constructor throws synchronously, before any network
call, when the credential or the subscription id is missing, and the
`PaloAltoNetworksCloudngfw` constructor does so when the credential is
missing (its subscription id is an optional overload argument).  The
`SecretClient` constructor, however, performs no such validation itself: in
particular, a missing vault URL never raises a synchronous error (the
identifier is merely stored), contrary to the claim. -/
theorem c8_constructor_validation :
    (∀ (s : Option String) (o : Option WorkloadsClientOptionalParams),
      workloadsClientConstructor none s o = Except.error "credentials cannot be null")
    ∧ (∀ (c : Credential) (o : Option WorkloadsClientOptionalParams),
      workloadsClientConstructor (some c) none o = Except.error "subscriptionId cannot be null")
    ∧ (∀ (soo : Option (String ⊕ NgfwOptionalParams)) (o : Option NgfwOptionalParams),
      ngfwClientConstructor none soo o = Except.error "credentials cannot be null")
    ∧ (∀ (sdkVersion : String) (c : Credential) (po : PipelineOptions),
      exceptIsOk (secretClientConstructor sdkVersion none (some c) po) = true) := by
  refine ⟨fun s o => rfl, fun c o => rfl, fun soo o => rfl, fun sdkVersion c po => ?_⟩
  rcases po with ⟨uao⟩
  cases uao <;> rfl

theorem c8_counterexample :
    secretClientConstructor "4.0.0" none (some {}) {}
      = Except.ok
          { vaultUrl := none
            credential := some {}
            pipelineOptions :=
              { userAgentOptions :=
                  some { userAgentPrefix := some "azsdk-js-keyvault-secrets/4.0.0" } } } :=
  rfl

theorem pollOnce_terminal (s : PollerState) (o : ProbeOutcome)
    (h : PollerStatus.isTerminal s.status = true) : pollOnce o s = (s, false) := by
  rcases s with ⟨name, status⟩
  cases status <;> simp_all [PollerStatus.isTerminal, pollOnce]

theorem runPolls_terminal (outcomes : List ProbeOutcome) (s : PollerState)
    (h : PollerStatus.isTerminal s.status = true) : runPolls outcomes s = (s, 0) := by
  induction outcomes with
  | nil => rfl
  | cons o os ih => simp [runPolls, pollOnce_terminal s o h, ih]

/-- C9: the poller lifecycle status is monotonic along
`NotStarted -> InProgress -> Succeeded | Failed`: every `poll()` step keeps
or advances the status rank, and once the status is terminal no subsequent
poll issues a network request and the status never changes again, over any
further sequence of probe outcomes. -/
theorem c9_poller_status_monotonic (s : PollerState) (o : ProbeOutcome)
    (outcomes : List ProbeOutcome) :
    PollerStatus.rank s.status ≤ PollerStatus.rank (pollOnce o s).1.status
    ∧ (PollerStatus.isTerminal s.status = true →
        pollOnce o s = (s, false) ∧ runPolls outcomes s = (s, 0)) := by
  constructor
  · rcases s with ⟨name, status⟩
    cases status <;> cases o <;> simp [pollOnce, PollerStatus.rank]
  · intro ht
    exact ⟨pollOnce_terminal s o ht, runPolls_terminal outcomes s ht⟩

theorem c9_poller_status_monotonic_witness :
    pollOnce ProbeOutcome.notFoundYet
        { name := "MySecretName", status := PollerStatus.succeeded }
      = ({ name := "MySecretName", status := PollerStatus.succeeded }, false)
    ∧ runPolls [ProbeOutcome.resourceObservable, ProbeOutcome.probeError]
        { name := "MySecretName", status := PollerStatus.succeeded }
      = ({ name := "MySecretName", status := PollerStatus.succeeded }, 0) :=
  (c9_poller_status_monotonic { name := "MySecretName", status := PollerStatus.succeeded }
    ProbeOutcome.notFoundYet
    [ProbeOutcome.resourceObservable, ProbeOutcome.probeError]).2 (by decide)

/-- C10: when the caller passes `pipelineOptions.userAgentOptions` to the
`SecretClient` constructor, the whole pipeline options object -- including
any `userAgentPrefix` it carries -- is left exactly as supplied, with no
library-identification suffix appended (the source computes the suffixed
string but discards it); only when `userAgentOptions` is omitted does the
constructor install a `userAgentPrefix` consisting of the library name and
version. -/
theorem c10_user_agent_options (sdkVersion : String) (vaultUrl : Option String)
    (credential : Option Credential) (po : PipelineOptions) :
    (∀ (u : UserAgentOptions) (st : SecretClientState), po.userAgentOptions = some u →
      secretClientConstructor sdkVersion vaultUrl credential po = Except.ok st →
      st.pipelineOptions = po)
    ∧ (∀ (st : SecretClientState), po.userAgentOptions = none →
      secretClientConstructor sdkVersion vaultUrl credential po = Except.ok st →
      st.pipelineOptions.userAgentOptions
        = some { userAgentPrefix := some ("azsdk-js-keyvault-secrets/" ++ sdkVersion) }) := by
  constructor
  · intro u st hu hok
    unfold secretClientConstructor at hok
    rw [hu] at hok
    simp only [Except.ok.injEq] at hok
    rw [← hok]
  · intro st hu hok
    unfold secretClientConstructor at hok
    rw [hu] at hok
    simp only [Except.ok.injEq] at hok
    rw [← hok]

theorem c10_user_agent_options_witness :
    c10StateSupplied.pipelineOptions = c10Options
    ∧ c10StateOmitted.pipelineOptions.userAgentOptions
        = some { userAgentPrefix := some "azsdk-js-keyvault-secrets/4.0.0" } :=
  ⟨(c10_user_agent_options "4.0.0" (some "https://v.example.net") (some {}) c10Options).1
      { userAgentPrefix := some "mine" } c10StateSupplied rfl rfl,
   (c10_user_agent_options "4.0.0" (some "https://v.example.net") (some {}) {}).2
      c10StateOmitted rfl rfl⟩
